import Mathlib

/-
Verification of the snarkOS group-encryption scheme and the node
Environment configuration constants.

The encryption scheme (`Setup → KeyGen → Encrypt → Decrypt`) is a
public-key scheme over a prime-order group: the repository ships its test
(`src/algorithms/src/encryption/tests.rs`) and the specification of the
module, so the scheme itself is modelled from the specification, over an
arbitrary additive commutative group `G` that is a module over the scalar
field `ZMod q` (the integers modulo the group's prime order `q`).

The Environment trait (`src/src/environment/mod.rs`) is modelled as a
structure whose field defaults are the trait's default constants, with one
value per trait implementation (Client, Miner, SyncNode, ClientTrial,
MinerTrial).
-/

namespace Snark

/-- Modelled from the spec: the error taxonomy of Encrypt (spec section 7);
the `EncryptionError` enum of the group-encryption module, whose source
file is not among the sampled files. -/
inductive EncryptionError where
  | EmptyMessage
  | RandomnessFailure
  deriving DecidableEq

/-- Modelled from the spec: the error taxonomy of Decrypt (spec section 7);
the `DecryptionError` enum of the group-encryption module, whose source
file is not among the sampled files. -/
inductive DecryptionError where
  | MalformedCiphertext
  deriving DecidableEq

section Scheme

variable {q : ℕ} {G : Type} [AddCommGroup G] [Module (ZMod q) G]

/-- Modelled from the spec: `SchemeParameters` produced by Setup (spec
sections 3 and 4.1) — the fixed generator `G` of the group — together with
the per-index mask derivation of spec section 4.3 step 5, an abstract
deterministic function of the shared value `S` and the index `i` (the spec
leaves the concrete derivation open). This stands for the
`GroupEncryption<G>` scheme value whose source file is not among the
sampled files. The parameter `q` is the group's prime order, whose scalar
field is `ZMod q`. -/
structure GroupEncryption (q : ℕ) (G : Type) where
  generator : G
  mask : G → ℕ → G

/-- Modelled from the spec: `setup(rng) -> SchemeParameters` (spec section
4.1). The randomness source is modelled by the generator it draws; the mask
derivation is fixed with the parameters. -/
def GroupEncryption.setup (q : ℕ) (g : G) (f : G → ℕ → G) : GroupEncryption q G :=
  ⟨g, f⟩

/-- Modelled from the spec: `keygen(params, rng) -> (PrivateKey, PublicKey)`
(spec section 4.2): samples `x` uniformly from the non-zero scalars and
computes `y = x · G`. The draw from the randomness source is modelled by
the scalar argument `x`. -/
def GroupEncryption.keygen (E : GroupEncryption q G) (x : ZMod q) : ZMod q × G :=
  (x, x • E.generator)

/-- Modelled from the spec: spec section 4.3 steps 5 and 6 — for each index
`i` in `1..=n`, derive `mask_i` from `(S, i)` and set `c_i = plaintext_i +
mask_i`. -/
def maskMessage (f : G → ℕ → G) (S : G) : ℕ → List G → List G
  | _, [] => []
  | i, a :: t => (a + f S i) :: maskMessage f S (i + 1) t

/-- Modelled from the spec: `encrypt(public_key, plaintext, rng) ->
Result<Ciphertext, EncryptionError>` (spec section 4.3): reject an empty
plaintext with `EmptyMessage`; otherwise commitment `c0 = r · G`, shared
value `S = r · public_key`, and `c_i = plaintext_i + mask_i`. The ephemeral
scalar drawn from the randomness source is the argument `r`. -/
def GroupEncryption.encrypt (E : GroupEncryption q G) (pk : G) (m : List G) (r : ZMod q) :
    Except EncryptionError (List G) :=
  match m with
  | [] => Except.error EncryptionError.EmptyMessage
  | _ :: _ => Except.ok (r • E.generator :: maskMessage E.mask (r • pk) 1 m)

/-- Modelled from the spec: the canonical byte encoding of a group element
(spec section 6). `Option.some g` stands for a byte string that decodes to
the valid prime-order-subgroup element `g`; `Option.none` for a byte
string that canonical decoding rejects. -/
abbrev Encoded (G : Type) : Type := Option G

/-- Modelled from the spec: canonical encoding of one element (spec section
6) — encoding always decodes back to the element itself. -/
def encode (g : G) : Encoded G := Option.some g

/-- Modelled from the spec: the ciphertext wire format, a sequence of
canonical element encodings (spec section 6). -/
def encodeCiphertext : List G → List (Encoded G)
  | [] => []
  | a :: t => encode a :: encodeCiphertext t

/-- Modelled from the spec: decoding of a received ciphertext, all or
nothing — it fails as soon as one component fails canonical decoding into
the prime-order subgroup (spec section 4.4 step 2). -/
def decodeCiphertext : List (Encoded G) → Option (List G)
  | [] => Option.some []
  | Option.none :: _ => Option.none
  | Option.some g :: rest =>
    match decodeCiphertext rest with
    | Option.none => Option.none
    | Option.some l => Option.some (g :: l)

/-- Modelled from the spec: spec section 4.4 steps 4 and 5 — recompute
`mask_i` from `(S', i)` and recover `plaintext_i = c_i - mask_i`. -/
def unmaskMessage (f : G → ℕ → G) (S : G) : ℕ → List G → List G
  | _, [] => []
  | i, a :: t => (a - f S i) :: unmaskMessage f S (i + 1) t

/-- Modelled from the spec: the arithmetic core of Decrypt on a decoded
ciphertext (spec section 4.4 steps 1 and 3-6): a `c0` component must exist;
the shared value is recomputed as `S' = private_key · c0` and each
`plaintext_i = c_i - mask_i` is recovered. -/
def decryptDecoded (f : G → ℕ → G) (x : ZMod q) : List G → Except DecryptionError (List G)
  | [] => Except.error DecryptionError.MalformedCiphertext
  | c0 :: rest => Except.ok (unmaskMessage f (x • c0) 1 rest)

/-- Modelled from the spec: `decrypt(private_key, ciphertext) ->
Result<Vec<GroupElement>, DecryptionError>` (spec section 4.4): validate
the ciphertext (length and canonical decoding), else `MalformedCiphertext`;
then recover the plaintext from the decoded components. -/
def GroupEncryption.decrypt (E : GroupEncryption q G) (x : ZMod q) (c : List (Encoded G)) :
    Except DecryptionError (List G) :=
  match decodeCiphertext c with
  | Option.none => Except.error DecryptionError.MalformedCiphertext
  | Option.some l => decryptDecoded E.mask x l

/-- Modelled from the spec: the randomness source shared by the operations
(spec sections 3 and 5), as a stream of scalar draws with a position. -/
structure RngState (q : ℕ) where
  stream : ℕ → ZMod q
  pos : ℕ

/-- Modelled from the spec: an Encrypt invocation against the randomness
source — it consumes one draw and advances the source. -/
def GroupEncryption.encryptCall (E : GroupEncryption q G) (pk : G) (m : List G)
    (s : RngState q) : Except EncryptionError (List G) × RngState q :=
  (E.encrypt pk m (s.stream s.pos), RngState.mk s.stream (s.pos + 1))

/-- Modelled from the spec: a Decrypt invocation against the randomness
source — Decrypt is a pure function of `(PrivateKey, Ciphertext)` (spec
sections 3 and 4.4), so the source is neither read nor advanced. -/
def GroupEncryption.decryptCall (E : GroupEncryption q G) (x : ZMod q)
    (c : List (Encoded G)) (s : RngState q) : Except DecryptionError (List G) × RngState q :=
  (E.decrypt x c, s)

end Scheme

/-- A concrete instantiation of the scheme over the prime-order group
`ZMod 5` (generator `2`, mask of `(S, i)` taken as `i · S`), used to
exercise the operations on explicit inputs. -/
def E5 : GroupEncryption 5 (ZMod 5) :=
  ⟨2, fun S i => (i : ZMod 5) * S⟩

instance fact_prime_five : Fact (Nat.Prime 5) :=
  ⟨by norm_num⟩

/-- The node types of `src/src/environment/mod.rs`. -/
inductive NodeType where
  | Client
  | Miner
  | Peer
  | Sync
  deriving DecidableEq

/-- The `Environment` trait of `src/src/environment/mod.rs`: one structure
field per associated constant, each field default being the trait's default
value; `MINIMUM_NUMBER_OF_PEERS` and `NODE_TYPE` have no default, exactly
as in the trait. The two port constants depend on the external
`Network::NETWORK_ID` and are modelled separately below. -/
structure Environment where
  NODE_TYPE : NodeType
  MESSAGE_VERSION : ℕ := 5
  COINBASE_IS_PUBLIC : Bool := false
  FAST_SYNC : Bool := true
  PEER_NODES : List String := []
  SYNC_NODES : List String := ["127.0.0.1:4132", "127.0.0.1:4135"]
  HEARTBEAT_IN_SECS : ℕ := 10
  CONNECTION_TIMEOUT_IN_SECS : ℕ := 3
  PING_SLEEP_IN_SECS : ℕ := 12
  RADIO_SILENCE_IN_SECS : ℕ := 120
  FAILURE_EXPIRY_TIME_IN_SECS : ℕ := 7200
  MINIMUM_NUMBER_OF_PEERS : ℕ
  MAXIMUM_NUMBER_OF_PEERS : ℕ := 21
  MAXIMUM_CONNECTION_FAILURES : ℕ := 5
  MAXIMUM_CANDIDATE_PEERS : ℕ := 10000
  MAXIMUM_MESSAGE_SIZE : ℕ := 128 * 1024 * 1024
  MAXIMUM_BLOCK_REQUEST : ℕ := 100
  MAXIMUM_NUMBER_OF_FAILURES : ℕ := 2400

/-- `DEFAULT_NODE_PORT = 4130 + Self::Network::NETWORK_ID` from the trait. -/
def defaultNodePort (networkId : ℕ) : ℕ := 4130 + networkId

/-- `DEFAULT_RPC_PORT = 3030 + Self::Network::NETWORK_ID` from the trait. -/
def defaultRpcPort (networkId : ℕ) : ℕ := 3030 + networkId

/-- The `impl Environment for Client<N>` of `src/src/environment/mod.rs`. -/
def Client : Environment :=
  { NODE_TYPE := NodeType.Client
    MINIMUM_NUMBER_OF_PEERS := 2 }

/-- The `impl Environment for Miner<N>` of `src/src/environment/mod.rs`. -/
def Miner : Environment :=
  { NODE_TYPE := NodeType.Miner
    COINBASE_IS_PUBLIC := true
    MINIMUM_NUMBER_OF_PEERS := 1 }

/-- The `impl Environment for SyncNode<N>` of `src/src/environment/mod.rs`. -/
def SyncNode : Environment :=
  { NODE_TYPE := NodeType.Sync
    MINIMUM_NUMBER_OF_PEERS := 5
    MAXIMUM_NUMBER_OF_PEERS := 1024 }

/-- The `impl Environment for ClientTrial<N>` of `src/src/environment/mod.rs`. -/
def ClientTrial : Environment :=
  { NODE_TYPE := NodeType.Client
    SYNC_NODES := ["144.126.219.193:4132", "165.232.145.194:4132"]
    MINIMUM_NUMBER_OF_PEERS := 5 }

/-- The `impl Environment for MinerTrial<N>` of `src/src/environment/mod.rs`. -/
def MinerTrial : Environment :=
  { NODE_TYPE := NodeType.Miner
    SYNC_NODES := ["144.126.219.193:4132", "165.232.145.194:4132"]
    MINIMUM_NUMBER_OF_PEERS := 5
    COINBASE_IS_PUBLIC := true }

section DecodeTheorems

variable {G : Type}

/-- Canonical decoding inverts canonical encoding of a ciphertext. -/
theorem decode_encodeCiphertext (c : List G) :
    decodeCiphertext (encodeCiphertext c) = Option.some c := by
  induction c with
  | nil => rfl
  | cons a t ih => simp [encodeCiphertext, encode, decodeCiphertext, ih]

/-- Ciphertext decoding fails as soon as one component is undecodable. -/
theorem decode_none_of_mem (c : List (Encoded G)) (h : Option.none ∈ c) :
    decodeCiphertext c = Option.none := by
  induction c with
  | nil => cases h
  | cons a t ih =>
    cases a with
    | none => rfl
    | some g =>
      have ht : Option.none ∈ t := by
        rcases List.mem_cons.mp h with h1 | h1
        · exact absurd h1 (by simp)
        · exact h1
      simp [decodeCiphertext, ih ht]

/-- Successful ciphertext decoding preserves the length. -/
theorem decode_length (c : List (Encoded G)) :
    ∀ l : List G, decodeCiphertext c = Option.some l → l.length = c.length := by
  induction c with
  | nil =>
    intro l h
    simp only [decodeCiphertext, Option.some.injEq] at h
    subst h
    rfl
  | cons a t ih =>
    intro l h
    cases a with
    | none => simp [decodeCiphertext] at h
    | some g =>
      simp only [decodeCiphertext] at h
      cases hd : decodeCiphertext t with
      | none => rw [hd] at h; cases h
      | some l2 =>
        rw [hd] at h
        injection h with h2
        subst h2
        simp [List.length_cons, ih l2 hd]

end DecodeTheorems

section SchemeTheorems

variable {q : ℕ} {G : Type} [AddCommGroup G] [Module (ZMod q) G]

/-- Scalar multiplications by two scalars of the field commute — the
algebraic heart of the scheme (spec section 4.4 step 3). -/
theorem zmod_smul_comm (x r : ZMod q) (g : G) : x • (r • g) = r • (x • g) := by
  rw [smul_smul, smul_smul, mul_comm]

/-- Masking a message does not alter its length. -/
theorem maskMessage_length (f : G → ℕ → G) (S : G) (l : List G) :
    ∀ i : ℕ, (maskMessage f S i l).length = l.length := by
  induction l with
  | nil => intro i; rfl
  | cons a t ih => intro i; simp [maskMessage, ih]

/-- Unmasking a message does not alter its length. -/
theorem unmaskMessage_length (f : G → ℕ → G) (S : G) (l : List G) :
    ∀ i : ℕ, (unmaskMessage f S i l).length = l.length := by
  induction l with
  | nil => intro i; rfl
  | cons a t ih => intro i; simp [unmaskMessage, ih]

/-- Unmasking with the shared value and start index of the masking recovers
the message. -/
theorem unmaskMessage_maskMessage (f : G → ℕ → G) (S : G) (l : List G) :
    ∀ i : ℕ, unmaskMessage f S i (maskMessage f S i l) = l := by
  induction l with
  | nil => intro i; rfl
  | cons a t ih => intro i; simp [maskMessage, unmaskMessage, ih]

/-- Claim C1: for every keypair produced by KeyGen under the scheme's
parameters, every non-empty plaintext vector of group elements and every
ephemeral scalar `r`, encryption succeeds and decryption of the (canonically
encoded) ciphertext with the matching private key returns exactly the
plaintext. -/
theorem C1_encrypt_decrypt_roundtrip (E : GroupEncryption q G) (x r : ZMod q)
    (m : List G) (hm : m ≠ []) :
    ∃ c, E.encrypt (E.keygen x).2 m r = Except.ok c ∧
      E.decrypt x (encodeCiphertext c) = Except.ok m := by
  obtain ⟨a, t, rfl⟩ := List.exists_cons_of_ne_nil hm
  refine ⟨_, rfl, ?_⟩
  unfold GroupEncryption.decrypt
  rw [decode_encodeCiphertext]
  show Except.ok (unmaskMessage E.mask (x • (r • E.generator)) 1
      (maskMessage E.mask (r • (x • E.generator)) 1 (a :: t))) =
    Except.ok (a :: t)
  rw [zmod_smul_comm x r E.generator, unmaskMessage_maskMessage]

/-- Witness for claim C1 on the concrete scheme `E5`, private key `3`,
ephemeral scalar `2` and plaintext `[1, 4]`. -/
theorem C1_witness :
    ([1, 4] : List (ZMod 5)) ≠ [] ∧
      ∃ c, E5.encrypt (E5.keygen 3).2 [1, 4] 2 = Except.ok c ∧
        E5.decrypt 3 (encodeCiphertext c) = Except.ok [1, 4] :=
  ⟨by decide, C1_encrypt_decrypt_roundtrip E5 3 2 [1, 4] (by decide)⟩

/-- Claim C2: encrypting the empty plaintext vector returns
`EncryptionError.EmptyMessage`, whatever the public key and the randomness
draw — the rejection precedes every group operation, so the result depends
on neither. -/
theorem C2_encrypt_empty (E : GroupEncryption q G) (pk : G) (r : ZMod q) :
    E.encrypt pk [] r = Except.error EncryptionError.EmptyMessage := rfl

/-- Claim C3: decryption returns `DecryptionError.MalformedCiphertext` — and
hence no truncated plaintext — whenever the ciphertext is empty (no `c0`
component) or some component fails canonical decoding into the prime-order
subgroup. -/
theorem C3_decrypt_malformed (E : GroupEncryption q G) (x : ZMod q)
    (c : List (Encoded G)) (h : c = [] ∨ Option.none ∈ c) :
    E.decrypt x c = Except.error DecryptionError.MalformedCiphertext := by
  rcases h with rfl | h
  · rfl
  · unfold GroupEncryption.decrypt
    rw [decode_none_of_mem c h]

/-- Witness for claim C3 on the concrete scheme `E5` and the one-component
ciphertext whose component fails canonical decoding. -/
theorem C3_witness :
    (([Option.none] : List (Encoded (ZMod 5))) = [] ∨
        Option.none ∈ ([Option.none] : List (Encoded (ZMod 5)))) ∧
      E5.decrypt 3 [Option.none] = Except.error DecryptionError.MalformedCiphertext :=
  ⟨by decide, C3_decrypt_malformed E5 3 [Option.none] (by decide)⟩

/-- Claim C4: whenever encryption succeeds, the ciphertext has length
exactly one more than the plaintext. -/
theorem C4_encrypt_length (E : GroupEncryption q G) (pk : G) (m : List G)
    (r : ZMod q) (c : List G) (h : E.encrypt pk m r = Except.ok c) :
    c.length = m.length + 1 := by
  cases m with
  | nil => exact Except.noConfusion h
  | cons a t =>
    have h2 : Except.ok (r • E.generator :: maskMessage E.mask (r • pk) 1 (a :: t)) =
        Except.ok c := h
    injection h2 with h3
    subst h3
    simp [List.length_cons, maskMessage_length]

/-- Witness for claim C4 on the concrete scheme `E5`, public key `1`,
plaintext `[1]` and ephemeral scalar `2`. -/
theorem C4_witness :
    E5.encrypt 1 [1] 2 = Except.ok [4, 3] ∧
      ([4, 3] : List (ZMod 5)).length = ([1] : List (ZMod 5)).length + 1 :=
  ⟨rfl, C4_encrypt_length E5 1 [1] 2 [4, 3] rfl⟩

/-- Claim C5: whenever decryption succeeds, the recovered plaintext has
length exactly one fewer than the ciphertext. -/
theorem C5_decrypt_length (E : GroupEncryption q G) (x : ZMod q)
    (c : List (Encoded G)) (p : List G) (h : E.decrypt x c = Except.ok p) :
    p.length = c.length - 1 := by
  unfold GroupEncryption.decrypt at h
  cases hd : decodeCiphertext c with
  | none => rw [hd] at h; exact Except.noConfusion h
  | some l =>
    rw [hd] at h
    cases l with
    | nil => exact Except.noConfusion h
    | cons c0 rest =>
      have h2 : Except.ok (unmaskMessage E.mask (x • c0) 1 rest) = Except.ok p := h
      injection h2 with h3
      subst h3
      have hlen := decode_length c (c0 :: rest) hd
      simp only [List.length_cons] at hlen
      rw [unmaskMessage_length, ← hlen]
      rfl

/-- Witness for claim C5 on the concrete scheme `E5`, private key `3` and
the two-component ciphertext `[4, 3]`. -/
theorem C5_witness :
    E5.decrypt 3 [Option.some 4, Option.some 3] = Except.ok [1] ∧
      ([1] : List (ZMod 5)).length =
        ([Option.some 4, Option.some 3] : List (Encoded (ZMod 5))).length - 1 :=
  ⟨rfl, C5_decrypt_length E5 3 [Option.some 4, Option.some 3] [1] rfl⟩

/-- Claim C6: Decrypt is deterministic — two invocations with the same
private key and ciphertext yield the same result whatever the state of the
randomness source, that result is the pure function of the pair, and the
randomness source is left untouched. -/
theorem C6_decrypt_deterministic (E : GroupEncryption q G) (x : ZMod q)
    (c : List (Encoded G)) (s₁ s₂ : RngState q) :
    (E.decryptCall x c s₁).1 = (E.decryptCall x c s₂).1 ∧
      (E.decryptCall x c s₁).1 = E.decrypt x c ∧
      (E.decryptCall x c s₁).2 = s₁ :=
  ⟨rfl, rfl, rfl⟩

/-- Claim C7: when encryption under the public key of `keygen x` succeeds,
the shared value `x · c0` recomputed at decryption from the commitment `c0`
equals the encryption-time shared value `r · public_key`, without the
public key being an input of Decrypt. -/
theorem C7_shared_value (E : GroupEncryption q G) (x r : ZMod q) (m : List G)
    (c0 : G) (rest : List G)
    (h : E.encrypt (E.keygen x).2 m r = Except.ok (c0 :: rest)) :
    x • c0 = r • (E.keygen x).2 := by
  cases m with
  | nil => exact Except.noConfusion h
  | cons a t =>
    have h2 : Except.ok (r • E.generator ::
        maskMessage E.mask (r • (E.keygen x).2) 1 (a :: t)) =
        Except.ok (c0 :: rest) := h
    injection h2 with h3
    injection h3 with h4 h5
    rw [← h4]
    show x • (r • E.generator) = r • (x • E.generator)
    exact zmod_smul_comm x r E.generator

/-- Witness for claim C7 on the concrete scheme `E5`, private key `3`,
ephemeral scalar `2` and plaintext `[1]`. -/
theorem C7_witness :
    E5.encrypt (E5.keygen 3).2 [1] 2 = Except.ok (4 :: [3]) ∧
      (3 : ZMod 5) • (4 : ZMod 5) = (2 : ZMod 5) • (E5.keygen 3).2 :=
  ⟨rfl, C7_shared_value E5 3 2 [1] 4 [3] rfl⟩

/-- Claim C8: with the group of prime order `q`, every private key produced
by `keygen` from a non-zero draw is a non-zero scalar whose canonical value
lies in `[1, q - 1]`, and the derived public key is never the group
identity (the generator not being the identity). -/
theorem C8_keygen_valid (E : GroupEncryption q G) [Fact (Nat.Prime q)]
    (x : ZMod q) (hx : x ≠ 0) (hg : E.generator ≠ 0) :
    (E.keygen x).1 ≠ 0 ∧ 1 ≤ ((E.keygen x).1).val ∧
      ((E.keygen x).1).val ≤ q - 1 ∧ (E.keygen x).2 ≠ 0 := by
  haveI : NeZero q := ⟨Nat.Prime.ne_zero Fact.out⟩
  refine ⟨hx, ?_, ?_, ?_⟩
  · exact Nat.one_le_iff_ne_zero.mpr (fun h0 => hx ((ZMod.val_eq_zero x).mp h0))
  · exact Nat.le_sub_one_of_lt (ZMod.val_lt x)
  · intro h0
    apply hg
    have h0' : x • E.generator = 0 := h0
    have h1 : x⁻¹ • (x • E.generator) = x⁻¹ • (0 : G) := by rw [h0']
    rwa [smul_zero, ← mul_smul, inv_mul_cancel₀ hx, one_smul] at h1

/-- Witness for claim C8 on the concrete scheme `E5` and the non-zero
private-key draw `3`. -/
theorem C8_witness :
    ((3 : ZMod 5) ≠ 0 ∧ E5.generator ≠ 0) ∧
      ((E5.keygen 3).1 ≠ 0 ∧ 1 ≤ ((E5.keygen 3).1).val ∧
        ((E5.keygen 3).1).val ≤ 5 - 1 ∧ (E5.keygen 3).2 ≠ 0) :=
  ⟨⟨by decide, by decide⟩, C8_keygen_valid E5 3 (by decide) (by decide)⟩

end SchemeTheorems

/-- Claim C9: every implementation of the Environment trait (Client, Miner,
SyncNode, ClientTrial, MinerTrial) keeps `CONNECTION_TIMEOUT_IN_SECS` (3)
at most `HEARTBEAT_IN_SECS` (10), since none overrides either default. -/
theorem C9_connection_timeout_le_heartbeat :
    Client.CONNECTION_TIMEOUT_IN_SECS ≤ Client.HEARTBEAT_IN_SECS ∧
      Miner.CONNECTION_TIMEOUT_IN_SECS ≤ Miner.HEARTBEAT_IN_SECS ∧
      SyncNode.CONNECTION_TIMEOUT_IN_SECS ≤ SyncNode.HEARTBEAT_IN_SECS ∧
      ClientTrial.CONNECTION_TIMEOUT_IN_SECS ≤ ClientTrial.HEARTBEAT_IN_SECS ∧
      MinerTrial.CONNECTION_TIMEOUT_IN_SECS ≤ MinerTrial.HEARTBEAT_IN_SECS := by
  decide

/-- Claim C10: every implementation of the Environment trait (Client, Miner,
SyncNode, ClientTrial, MinerTrial) keeps `MINIMUM_NUMBER_OF_PEERS` at most
`MAXIMUM_NUMBER_OF_PEERS` (2 ≤ 21, 1 ≤ 21, 5 ≤ 1024, 5 ≤ 21 and 5 ≤ 21
respectively). -/
theorem C10_min_peers_le_max_peers :
    Client.MINIMUM_NUMBER_OF_PEERS ≤ Client.MAXIMUM_NUMBER_OF_PEERS ∧
      Miner.MINIMUM_NUMBER_OF_PEERS ≤ Miner.MAXIMUM_NUMBER_OF_PEERS ∧
      SyncNode.MINIMUM_NUMBER_OF_PEERS ≤ SyncNode.MAXIMUM_NUMBER_OF_PEERS ∧
      ClientTrial.MINIMUM_NUMBER_OF_PEERS ≤ ClientTrial.MAXIMUM_NUMBER_OF_PEERS ∧
      MinerTrial.MINIMUM_NUMBER_OF_PEERS ≤ MinerTrial.MAXIMUM_NUMBER_OF_PEERS := by
  decide

end Snark
